import Mathlib

/-!
Shallow embedding of the iPDF Document Indexing & Retrieval Pipeline
(`src/services/query_service.py`, `src/services/pdf_service.py`,
`src/core/vectorstore.py`, `src/core/embeddings.py`) together with
theorems settling the specification claims about it.

Scores coming back from the vector store are modelled as rationals (only
order comparisons are performed on them in the code, never arithmetic).
Python strings are modelled as `String`, with character-level operations
(slicing, strip, lower, substring test) carried out on `List Char`, which
matches Python's code-point semantics.  Remote collaborators (the Qdrant
store, the sentence-transformer model) are abstracted as function
parameters; everything the repository's own code does to their outputs is
translated faithfully.
-/

set_option maxRecDepth 8000

/-- Payload attached to an indexed point, as built in
`PDFService._process_text_chunk` and read back in `QueryService.search`. -/
structure Payload where
  filename : String
  page_number : Nat
  content : String
deriving Repr, DecidableEq

/-- One search hit as returned by `VectorStoreManager.search`:
`{"score": r.score, "payload": r.payload}`. -/
structure SearchResult where
  score : ℚ
  payload : Payload
deriving Repr, DecidableEq

/-- Dedup key used in `QueryService.search`:
`content_hash = content[:100]`, the first 100 characters of the content
(Python slicing is by code point, hence `List Char`). -/
def contentKey (r : SearchResult) : List Char :=
  r.payload.content.toList.take 100

/-- The filtering loop of `QueryService.search` (query_service.py lines
89-115): walk the raw candidates in order; drop a candidate whose score is
below `min_score`; drop a candidate whose 100-character content key was
already seen; otherwise keep it, record its key, and stop as soon as the
kept list has reached `limit` (the length check runs right after each
append). -/
def searchFilter (min_score : ℚ) (limit : Nat) :
    List SearchResult → List (List Char) → Nat → List SearchResult
  | [], _, _ => []
  | r :: rest, seen, cnt =>
    if r.score < min_score then
      searchFilter min_score limit rest seen cnt
    else if contentKey r ∈ seen then
      searchFilter min_score limit rest seen cnt
    else if cnt + 1 ≥ limit then
      [r]
    else
      r :: searchFilter min_score limit rest (contentKey r :: seen) (cnt + 1)

/-- The body of `QueryService.search`: the store is asked for `limit * 3`
raw candidates (`store_search` abstracts `VectorStoreManager.search`,
which returns hits in the store's descending-similarity order), and the
filter/dedup loop is run over them.  There is no further step: whatever
the loop produces is returned. -/
def QueryService.search (store_search : Nat → List SearchResult)
    (limit : Nat) (min_score : ℚ) : List SearchResult :=
  searchFilter min_score limit (store_search (limit * 3)) [] 0

/-- Default `min_score` of `QueryService.search` (0.3, lowered from 0.5). -/
def default_min_score : ℚ := mkRat 3 10

/-- Candidate lists arrive from the store ordered by descending score. -/
def ScoreDesc (l : List SearchResult) : Prop :=
  l.Pairwise (fun a b => b.score ≤ a.score)

instance (l : List SearchResult) : Decidable (ScoreDesc l) := by
  unfold ScoreDesc; infer_instance

/-- Store used to exercise the dedup theorem: two candidates share their
100-character content key, a third is distinct, scores descending. -/
def c5_store : Nat → List SearchResult := fun _ =>
  [⟨mkRat 9 10, ⟨"a.pdf", 1, "same text"⟩⟩,
   ⟨mkRat 8 10, ⟨"a.pdf", 2, "same text"⟩⟩,
   ⟨mkRat 7 10, ⟨"b.pdf", 3, "other text"⟩⟩]

/-!  Chunker (`PDFService._process_text_chunk`, pdf_service.py lines 53-78). -/

/-- Window size `PDFService.CHUNK_SIZE`. -/
def CHUNK_SIZE : Nat := 800

/-- Window overlap `PDFService.CHUNK_OVERLAP`. -/
def CHUNK_OVERLAP : Nat := 150

/-- Python `range(0, stop, step)` for a positive step: the multiples of
`step` below `stop`. -/
def pyRange (stop step : Nat) : List Nat :=
  (List.range ((stop + step - 1) / step)).map (fun k => k * step)

/-- Python `str.strip()`: remove leading and trailing whitespace. -/
def pyStrip (s : List Char) : List Char :=
  ((s.dropWhile Char.isWhitespace).reverse.dropWhile Char.isWhitespace).reverse

/-- Window start offsets of the chunking loop
`for i in range(0, len(text), self.CHUNK_SIZE - self.CHUNK_OVERLAP)`. -/
def chunk_starts (text : List Char) : List Nat :=
  pyRange text.length (CHUNK_SIZE - CHUNK_OVERLAP)

/-- Payload dictionary built during ingestion (pdf_service.py); text chunks
carry no image, image chunks carry the extractor's content and base64. -/
structure IngestPayload where
  filename : String
  page_number : Nat
  content_type : String
  content : String
  image_base64 : Option String
deriving Repr, DecidableEq

/-- `PDFService._process_text_chunk`: slice `text[i:i+CHUNK_SIZE]` at each
window start, strip it, and keep it (chunk and payload) only when the
stripped length exceeds 50 characters. -/
def process_text_chunk (text : List Char) (page_number : Nat)
    (filename : String) : List (List Char × IngestPayload) :=
  (chunk_starts text).filterMap (fun i =>
    let chunk := pyStrip ((text.drop i).take CHUNK_SIZE)
    if 50 < chunk.length then
      some (chunk, ⟨filename, page_number, "text", String.mk chunk, none⟩)
    else none)

/-!  Collection Manager (`VectorStoreManager._ensure_collection`,
vectorstore.py lines 60-103). -/

/-- One point stored in the Qdrant collection. -/
structure StoredPoint where
  vector : List ℚ
  payload : IngestPayload
deriving Repr, DecidableEq

/-- The collection state visible to `_ensure_collection`: its configured
vector dimension and its points.  `none` models an absent collection
(`get_collection` raising). -/
structure Collection where
  dim : Nat
  points : List StoredPoint
deriving Repr, DecidableEq

/-- Remote calls `_ensure_collection` can issue against the store. -/
inductive CollectionOp where
  | delete_collection : CollectionOp
  | create_collection : Nat → CollectionOp
deriving Repr, DecidableEq

/-- Expected dimension hardcoded in `_ensure_collection`
(`expected_dim = 384`, matching all-MiniLM-L6-v2). -/
def expected_dim : Nat := 384

/-- `VectorStoreManager._ensure_collection`: when the collection exists with
a different dimension, delete it wholesale and create a fresh empty one;
when it exists with the expected dimension, do nothing; when it is absent,
create it.  Returns the new state and the remote operations issued. -/
def ensure_collection (state : Option Collection) :
    Option Collection × List CollectionOp :=
  match state with
  | some c =>
    if c.dim ≠ expected_dim then
      (some ⟨expected_dim, []⟩,
        [CollectionOp.delete_collection, CollectionOp.create_collection expected_dim])
    else (some c, [])
  | none =>
    (some ⟨expected_dim, []⟩, [CollectionOp.create_collection expected_dim])

/-!  Embedding Generator (`EmbeddingGenerator.generate_embedding`,
embeddings.py lines 26-35) and PDF ingestion (`PDFService`,
pdf_service.py lines 80-156). -/

/-- Outcome of a Python call: a value, or an exception with its message. -/
inductive PyResult (α : Type) where
  | ok : α → PyResult α
  | raised : String → PyResult α
deriving Repr, DecidableEq

/-- `EmbeddingGenerator.generate_embedding`: raise `EmbeddingError` for an
empty or whitespace-only text, otherwise return the model's vector exactly
as produced (`model_encode` abstracts `self.model.encode(text).tolist()`).
The function contains no length check of any kind. -/
def generate_embedding (model_encode : String → List ℚ) (text : String) :
    PyResult (List ℚ) :=
  if text.toList = [] ∨ pyStrip text.toList = [] then
    PyResult.raised ("EmbeddingError: Cannot generate embedding for empty text")
  else PyResult.ok (model_encode text)

/-- A content element handed over by `MultimodalExtractor.process_pdf`. -/
structure ContentElement where
  content_type : String
  content : String
  page_number : Nat
  image_base64 : Option String
deriving Repr, DecidableEq

/-- Extraction outcome consumed by `process_and_index_pdf`. -/
structure ExtractionResult where
  success : Bool
  elements : List ContentElement
deriving Repr, DecidableEq

/-- The attributes the class body of `VectorStoreManager`
(core/vectorstore.py) defines — and nothing else. -/
def vector_store_methods : List String :=
  ["__init__", "_ensure_collection", "_ensure_payload_indexes",
   "add_points", "search", "test_connection"]

/-- Python attribute lookup on a `VectorStoreManager` instance: invoking a
method the class does not define raises `AttributeError`. -/
def call_vector_store (method : String) : PyResult Unit :=
  if method ∈ vector_store_methods then PyResult.ok ()
  else PyResult.raised ("AttributeError: " ++ method)

/-- Chunk/payload pairs contributed by one element in STEP 2 of
`process_and_index_pdf`: text elements go through the sliding-window
chunker, image elements produce one synthetic searchable string that keeps
the extractor's content and base64 in the payload, anything else nothing. -/
def prepare_element (filename : String) (e : ContentElement) :
    List (List Char × IngestPayload) :=
  if e.content_type == "text" then
    process_text_chunk e.content.toList e.page_number filename
  else if e.content_type == "image" then
    [((("Page ") ++ toString e.page_number
        ++ (" visual content tables figures charts diagrams from ")
        ++ filename).toList,
      ⟨filename, e.page_number, "image", e.content, e.image_base64⟩)]
  else []

/-- STEP 2 of `process_and_index_pdf` over all extracted elements. -/
def prepare_chunks (elements : List ContentElement) (filename : String) :
    List (List Char × IngestPayload) :=
  (elements.map (prepare_element filename)).flatten

/-- `PDFService.process_and_index_pdf`: extract, chunk, embed
(`embed_batch` abstracts `generate_embeddings_batch`), then index through
`self.vector_store.add_multimodal_points(...)`.  The whole body sits in a
`try` whose handler returns `False`.  The second component counts points
actually written to the store. -/
def process_and_index_pdf (embed_batch : List (List Char) → List (List ℚ))
    (result : ExtractionResult) (filename : String) : Bool × Nat :=
  let body : PyResult (Bool × Nat) :=
    if result.success = false then PyResult.ok (false, 0)
    else
      let cps := prepare_chunks result.elements filename
      if cps = [] then PyResult.ok (false, 0)
      else
        let embeddings := embed_batch (cps.map Prod.fst)
        match call_vector_store ("add_multimodal_points") with
        | PyResult.ok _ => PyResult.ok (true, embeddings.length)
        | PyResult.raised e => PyResult.raised e
  match body with
  | PyResult.ok r => r
  | PyResult.raised _ => (false, 0)

/-- Sample extracted document for `C2_ingest_always_fails`: one text
element comfortably above the 50-character floor. -/
def c2_sample_result : ExtractionResult :=
  ⟨true,
   [⟨"text",
     "This sentence is deliberately written to be longer than fifty characters.",
     1, none⟩]⟩

/-!  Query enhancement and context assembly
(`QueryService.enhance_query`, `QueryService.get_context_for_query`,
query_service.py lines 25-62 and 122-159). -/

/-- Whether the pattern `p` is a prefix of `s` (code-point-wise). -/
def listBeginsWith : List Char → List Char → Bool
  | [], _ => true
  | _ :: _, [] => false
  | a :: p, b :: s => a == b && listBeginsWith p s

/-- Python's substring operator `p in s` on code points. -/
def listContainsSub : List Char → List Char → Bool
  | [], p => p.isEmpty
  | b :: t, p => listBeginsWith p (b :: t) || listContainsSub t p

/-- Python `str.lower()` (the patterns involved are all ASCII). -/
def pyLower (s : List Char) : List Char :=
  s.map Char.toLower

/-- The `query_enhancements` mapping of `QueryService.enhance_query`, in
the insertion order of the Python dict. -/
def query_enhancements : List (String × String) :=
  [("provide a comprehensive summary", "abstract introduction conclusion"),
   ("summarize", "abstract introduction conclusion"),
   ("summary", "abstract introduction conclusion"),
   ("what are the key points", "conclusion key findings"),
   ("key points", "conclusion key findings"),
   ("what are the main topics", "introduction overview"),
   ("main topics", "introduction overview"),
   ("give detailed information", "method methodology results"),
   ("details", "method methodology results"),
   ("explain table", "table"),
   ("explain figure", "figure"),
   ("explain diagram", "figure diagram"),
   ("table 1", "table 1"),
   ("figure 1", "figure 1")]

/-- `QueryService.enhance_query`: lowercase and strip the query, return the
replacement of the first pattern contained in it, else the query itself. -/
def enhance_query (query : String) : String :=
  match query_enhancements.find?
      (fun pe => listContainsSub (pyStrip (pyLower query.toList)) pe.1.toList) with
  | some pe => pe.2
  | none => query

/-- The final result list `get_context_for_query` formats: search the
enhanced query with a doubled-and-capped limit when enhancement changed the
query, and retry the original query (at the caller's limit) only when that
first search came back empty and the query had been enhanced. -/
def context_results (sf : String → Nat → List SearchResult) (query : String)
    (limit : Nat) : List SearchResult :=
  let enhanced_query := enhance_query query
  let search_limit := if enhanced_query ≠ query then min (limit * 2) 10 else limit
  let results := sf enhanced_query search_limit
  if results.isEmpty then
    (if enhanced_query ≠ query then sf query limit else results)
  else results

/-- The `(query, limit)` pairs `get_context_for_query` passes to
`self.search`, in call order. -/
def context_search_calls (sf : String → Nat → List SearchResult)
    (query : String) (limit : Nat) : List (String × Nat) :=
  let enhanced_query := enhance_query query
  let search_limit := if enhanced_query ≠ query then min (limit * 2) 10 else limit
  let results := sf enhanced_query search_limit
  if results.isEmpty ∧ enhanced_query ≠ query then
    [(enhanced_query, search_limit), (query, limit)]
  else [(enhanced_query, search_limit)]

/-- One labelled context block:
`f"[Source {idx + 1} - {filename}, Page {page_number}]\n{content}\n"`. -/
def format_source (idx : Nat) (r : SearchResult) : String :=
  ("[Source ") ++ toString (idx + 1) ++ (" - ") ++ r.payload.filename
    ++ (", Page ") ++ toString r.payload.page_number ++ ("]\n")
    ++ r.payload.content ++ ("\n")

/-- Python `sep.join(parts)`. -/
def join_sep (sep : String) : List String → String
  | [] => ""
  | [x] => x
  | x :: y :: rest => x ++ sep ++ join_sep sep (y :: rest)

/-- Sentinel returned when nothing relevant was found. -/
def no_context_sentinel : String := "No relevant context found in the documents."

/-- Fixed delimiter between context blocks. -/
def context_delimiter : String := "\n---\n\n"

/-- `QueryService.get_context_for_query`: sentinel on an empty final result
list, otherwise the enumerated, labelled blocks joined by the delimiter. -/
def get_context_for_query (sf : String → Nat → List SearchResult)
    (query : String) (limit : Nat) : String :=
  let results := context_results sf query limit
  if results.isEmpty then no_context_sentinel
  else
    join_sep context_delimiter
      (results.enum.map (fun p => format_source p.1 p.2))

/-- Store used to exercise the context-assembly theorem. -/
def c9_store : String → Nat → List SearchResult := fun _ _ =>
  [⟨mkRat 9 10, ⟨"a.pdf", 2, "hello"⟩⟩]

/-- Every result the filter loop keeps comes from the candidate list. -/
theorem searchFilter_subset (ms : ℚ) (lim : Nat) :
    ∀ (l : List SearchResult) (seen : List (List Char)) (cnt : Nat) (r : SearchResult),
      r ∈ searchFilter ms lim l seen cnt → r ∈ l := by
  intro l
  induction l with
  | nil => intro seen cnt r h; simp [searchFilter] at h
  | cons r0 rest ih =>
    intro seen cnt r h
    simp only [searchFilter] at h
    split_ifs at h with h1 h2 h3
    · exact List.mem_cons_of_mem _ (ih _ _ _ h)
    · exact List.mem_cons_of_mem _ (ih _ _ _ h)
    · simp only [List.mem_singleton] at h
      subst h; exact List.mem_cons_self _ _
    · rcases List.mem_cons.mp h with h | h
      · subst h; exact List.mem_cons_self _ _
      · exact List.mem_cons_of_mem _ (ih _ _ _ h)

/-- Every result the filter loop keeps scores at least `min_score`. -/
theorem searchFilter_score (ms : ℚ) (lim : Nat) :
    ∀ (l : List SearchResult) (seen : List (List Char)) (cnt : Nat) (r : SearchResult),
      r ∈ searchFilter ms lim l seen cnt → ms ≤ r.score := by
  intro l
  induction l with
  | nil => intro seen cnt r h; simp [searchFilter] at h
  | cons r0 rest ih =>
    intro seen cnt r h
    simp only [searchFilter] at h
    split_ifs at h with h1 h2 h3
    · exact ih _ _ _ h
    · exact ih _ _ _ h
    · simp only [List.mem_singleton] at h
      subst h; exact not_lt.mp h1
    · rcases List.mem_cons.mp h with h | h
      · subst h; exact not_lt.mp h1
      · exact ih _ _ _ h

/-- The key of every result the filter loop keeps was not yet seen when
the loop started. -/
theorem searchFilter_key_not_seen (ms : ℚ) (lim : Nat) :
    ∀ (l : List SearchResult) (seen : List (List Char)) (cnt : Nat) (r : SearchResult),
      r ∈ searchFilter ms lim l seen cnt → contentKey r ∉ seen := by
  intro l
  induction l with
  | nil => intro seen cnt r h; simp [searchFilter] at h
  | cons r0 rest ih =>
    intro seen cnt r h
    simp only [searchFilter] at h
    split_ifs at h with h1 h2 h3
    · exact ih _ _ _ h
    · exact ih _ _ _ h
    · simp only [List.mem_singleton] at h
      subst h; exact h2
    · rcases List.mem_cons.mp h with h | h
      · subst h; exact h2
      · intro hmem
        exact ih _ _ _ h (List.mem_cons_of_mem _ hmem)

/-- The filter loop never keeps two results with the same content key. -/
theorem searchFilter_keys_pairwise (ms : ℚ) (lim : Nat) :
    ∀ (l : List SearchResult) (seen : List (List Char)) (cnt : Nat),
      (searchFilter ms lim l seen cnt).Pairwise
        (fun a b => contentKey a ≠ contentKey b) := by
  intro l
  induction l with
  | nil => intro seen cnt; simp [searchFilter]
  | cons r0 rest ih =>
    intro seen cnt
    simp only [searchFilter]
    split_ifs with h1 h2 h3
    · exact ih _ _
    · exact ih _ _
    · simp
    · refine List.pairwise_cons.mpr ⟨?_, ih _ _⟩
      intro b hb hkey
      have := searchFilter_key_not_seen ms lim rest _ _ b hb
      exact this (hkey ▸ List.mem_cons_self _ _)

/-- When the candidates are sorted by descending score, every kept result
is the first candidate carrying its content key. -/
theorem searchFilter_first_key (ms : ℚ) (lim : Nat) :
    ∀ (l : List SearchResult) (seen : List (List Char)) (cnt : Nat),
      ScoreDesc l →
      ∀ r ∈ searchFilter ms lim l seen cnt,
        l.find? (fun x => contentKey x == contentKey r) = some r := by
  intro l
  induction l with
  | nil => intro seen cnt _ r h; simp [searchFilter] at h
  | cons r0 rest ih =>
    intro seen cnt hsd r h
    have hsd' := (List.pairwise_cons.mp hsd)
    have hhead : ∀ b ∈ rest, b.score ≤ r0.score := hsd'.1
    have htail : ScoreDesc rest := hsd'.2
    simp only [searchFilter] at h
    split_ifs at h with h1 h2 h3
    · -- r0 below threshold: under descending order no later candidate passes
      have hr : ms ≤ r.score := searchFilter_score ms lim rest _ _ r h
      have hmem : r ∈ rest := searchFilter_subset ms lim rest _ _ r h
      exact absurd h1 (not_lt.mpr (le_trans hr (hhead r hmem)))
    · -- r0 deduplicated away: its key differs from every kept key
      have hne : contentKey r ≠ contentKey r0 := by
        intro heq
        exact searchFilter_key_not_seen ms lim rest _ _ r h (heq ▸ h2)
      rw [List.find?_cons_of_neg _ (by simpa using fun heq => hne heq.symm)]
      exact ih _ _ htail r h
    · simp only [List.mem_singleton] at h
      subst h
      exact List.find?_cons_of_pos _ (by simp)
    · rcases List.mem_cons.mp h with h | h
      · subst h
        exact List.find?_cons_of_pos _ (by simp)
      · have hne : contentKey r ≠ contentKey r0 := by
          intro heq
          exact searchFilter_key_not_seen ms lim rest _ _ r h
            (heq ▸ List.mem_cons_self _ _)
        rw [List.find?_cons_of_neg _ (by simpa using fun heq => hne heq.symm)]
        exact ih _ _ htail r h

/-- When every candidate scores below the threshold, the loop keeps nothing. -/
theorem searchFilter_all_low (ms : ℚ) (lim : Nat) :
    ∀ (l : List SearchResult) (seen : List (List Char)) (cnt : Nat),
      (∀ r ∈ l, r.score < ms) → searchFilter ms lim l seen cnt = [] := by
  intro l
  induction l with
  | nil => intro seen cnt _; simp [searchFilter]
  | cons r0 rest ih =>
    intro seen cnt hall
    simp only [searchFilter]
    rw [if_pos (hall r0 (List.mem_cons_self _ _))]
    exact ih _ _ (fun r hr => hall r (List.mem_cons_of_mem _ hr))

/-- C1: the claim asserts that when raw candidates exist but the score filter
removes all of them, `search` falls back to returning the raw top-`limit`
candidates, so the caller receives a non-empty list.  The code has no such
fallback: with one retrieved candidate scoring 0.1 < 0.3, candidates exist
but `QueryService.search` returns `[]`, not the non-empty raw list. -/
theorem C1_counterexample :
    (fun _ : Nat => [(⟨mkRat 1 10, ⟨"a.pdf", 1, "x"⟩⟩ : SearchResult)]) (5 * 3) ≠ [] ∧
    QueryService.search (fun _ => [⟨mkRat 1 10, ⟨"a.pdf", 1, "x"⟩⟩]) 5
      default_min_score = [] := by
  decide

/-- C1 (amended): when the score filter of step 3 removes every raw candidate,
`QueryService.search` returns the empty list — there is no fallback path, and
`min_score` acts as a hard cutoff rather than a soft preference. -/
theorem C1_amended_no_fallback (ss : Nat → List SearchResult) (lim : Nat) (ms : ℚ)
    (h : ∀ r ∈ ss (lim * 3), r.score < ms) :
    QueryService.search ss lim ms = [] :=
  searchFilter_all_low ms lim _ [] 0 h

/-- Concrete run of `C1_amended_no_fallback`: one candidate below threshold,
empty answer. -/
theorem C1_amended_no_fallback_witness :
    QueryService.search (fun _ => [⟨mkRat 1 10, ⟨"a.pdf", 1, "x"⟩⟩]) 5
      default_min_score = [] :=
  C1_amended_no_fallback (fun _ => [⟨mkRat 1 10, ⟨"a.pdf", 1, "x"⟩⟩]) 5
    default_min_score (by decide)

/-- C4: every result returned by `QueryService.search` scores at least
`min_score`; the code has no fallback path, so this holds of every search. -/
theorem C4_score_invariant (ss : Nat → List SearchResult) (lim : Nat) (ms : ℚ)
    (r : SearchResult) (h : r ∈ QueryService.search ss lim ms) :
    ms ≤ r.score :=
  searchFilter_score ms lim _ [] 0 r h

/-- Concrete run of `C4_score_invariant` on a store with one strong hit. -/
theorem C4_score_invariant_witness :
    default_min_score ≤ (⟨mkRat 9 10, ⟨"a.pdf", 1, "x"⟩⟩ : SearchResult).score :=
  C4_score_invariant (fun _ => [⟨mkRat 9 10, ⟨"a.pdf", 1, "x"⟩⟩]) 5
    default_min_score _ (by decide)

/-- C5: in one search response the content-prefix keys of the results are
pairwise distinct, and — when the raw candidates arrive in descending-score
order, as the vector store returns them — each kept result is the first
candidate encountered that carries its key. -/
theorem C5_dedup_invariant (ss : Nat → List SearchResult) (lim : Nat) (ms : ℚ)
    (hsorted : ScoreDesc (ss (lim * 3))) :
    (QueryService.search ss lim ms).Pairwise
      (fun a b => contentKey a ≠ contentKey b) ∧
    ∀ r ∈ QueryService.search ss lim ms,
      (ss (lim * 3)).find? (fun x => contentKey x == contentKey r) = some r :=
  ⟨searchFilter_keys_pairwise ms lim _ [] 0,
   fun r hr => searchFilter_first_key ms lim _ [] 0 hsorted r hr⟩

/-- C6: the chunking loop advances its window start by
`CHUNK_SIZE - CHUNK_OVERLAP` per step, and before the minimum-length filter
the windows `[i, i + CHUNK_SIZE)` taken over `chunk_starts` cover every
character position of the original text at least once. -/
theorem C6_chunk_coverage (text : List Char) (p : Nat) (hp : p < text.length) :
    ∃ i ∈ chunk_starts text, i ≤ p ∧ p < i + CHUNK_SIZE := by
  refine ⟨p / 650 * 650, ?_, ?_, ?_⟩
  · show p / 650 * 650 ∈ pyRange text.length (CHUNK_SIZE - CHUNK_OVERLAP)
    simp only [pyRange, List.mem_map, List.mem_range]
    refine ⟨p / 650, ?_, rfl⟩
    have h1 : p / 650 * 650 ≤ p := Nat.div_mul_le_self p 650
    have h2 : (p / 650 + 1) * 650 ≤ text.length + 649 := by omega
    have h3 := (Nat.le_div_iff_mul_le (by norm_num : 0 < 650)).mpr h2
    have hstep : CHUNK_SIZE - CHUNK_OVERLAP = 650 := rfl
    rw [hstep]
    omega
  · exact Nat.div_mul_le_self p 650
  · have h3 := Nat.div_add_mod p 650
    have h4 : p % 650 < 650 := Nat.mod_lt p (by norm_num)
    have hcs : CHUNK_SIZE = 800 := rfl
    omega

/-- Concrete run of `C6_chunk_coverage`: position 3 of an 11-character text
is covered by the single window starting at 0. -/
theorem C6_chunk_coverage_witness :
    ∃ i ∈ chunk_starts (("hello world").toList), i ≤ 3 ∧ 3 < i + CHUNK_SIZE :=
  C6_chunk_coverage (("hello world").toList) 3 (by decide)

/-- C7: a second `ensure_collection` call (same hardcoded expected dimension)
finds a matching collection, issues no delete and no create, and leaves the
state unchanged. -/
theorem C7_ensure_collection_idempotent (s : Option Collection) :
    (∃ c, (ensure_collection s).1 = some c ∧ c.dim = expected_dim) ∧
    ensure_collection (ensure_collection s).1 = ((ensure_collection s).1, []) := by
  cases s with
  | none => simp [ensure_collection]
  | some c =>
    by_cases h : c.dim = expected_dim
    · simp [ensure_collection, h]
    · simp [ensure_collection, h]

/-- C8: on a dimension mismatch `ensure_collection` deletes the whole
collection and creates a new one with the expected dimension; the new state
holds no points at all, whatever documents the old points came from. -/
theorem C8_mismatch_recreates_destructively (c : Collection)
    (h : c.dim ≠ expected_dim) :
    (ensure_collection (some c)).2 =
      [CollectionOp.delete_collection, CollectionOp.create_collection expected_dim] ∧
    (ensure_collection (some c)).1 = some ⟨expected_dim, []⟩ := by
  simp [ensure_collection, h]

/-- Concrete run of `C8_mismatch_recreates_destructively`: a 768-dimension
collection holding one point is wiped. -/
theorem C8_mismatch_recreates_destructively_witness :
    (ensure_collection (some ⟨768, [⟨[mkRat 1 2], ⟨"a.pdf", 1, "text", "x", none⟩⟩]⟩)).2 =
      [CollectionOp.delete_collection, CollectionOp.create_collection expected_dim] ∧
    (ensure_collection (some ⟨768, [⟨[mkRat 1 2], ⟨"a.pdf", 1, "text", "x", none⟩⟩]⟩)).1 =
      some ⟨expected_dim, []⟩ :=
  C8_mismatch_recreates_destructively _ (by decide)

/-- Concrete run of `C5_dedup_invariant` on `c5_store`: keys distinct, and the
kept duplicate is the higher-scoring first instance. -/
theorem C5_dedup_invariant_witness :
    (QueryService.search c5_store 5 default_min_score).Pairwise
      (fun a b => contentKey a ≠ contentKey b) ∧
    (c5_store (5 * 3)).find?
        (fun x => contentKey x == contentKey ⟨mkRat 9 10, ⟨"a.pdf", 1, "same text"⟩⟩)
      = some ⟨mkRat 9 10, ⟨"a.pdf", 1, "same text"⟩⟩ :=
  ⟨(C5_dedup_invariant c5_store 5 default_min_score (by decide)).1,
   (C5_dedup_invariant c5_store 5 default_min_score (by decide)).2 _ (by decide)⟩

/-- C2: `VectorStoreManager` defines no `add_multimodal_points`, so for
every successfully extracted document that yields at least one chunk,
`process_and_index_pdf` hits an `AttributeError`, reports failure, and
writes zero points. -/
theorem C2_ingest_always_fails (embed_batch : List (List Char) → List (List ℚ))
    (result : ExtractionResult) (filename : String)
    (hsucc : result.success = true)
    (hchunks : prepare_chunks result.elements filename ≠ []) :
    (("add_multimodal_points" : String) ∉ vector_store_methods) ∧
    process_and_index_pdf embed_batch result filename = (false, 0) := by
  refine ⟨by decide, ?_⟩
  have hcall : call_vector_store ("add_multimodal_points")
      = PyResult.raised (("AttributeError: ") ++ ("add_multimodal_points")) := by
    unfold call_vector_store
    rw [if_neg (by decide)]
  simp [process_and_index_pdf, hsucc, hchunks, hcall]

/-- Concrete run of `C2_ingest_always_fails`. -/
theorem C2_ingest_always_fails_witness :
    process_and_index_pdf (fun l => l.map (fun _ => []))
      c2_sample_result ("doc.pdf") = (false, 0) :=
  (C2_ingest_always_fails (fun l => l.map (fun _ => [])) c2_sample_result
    ("doc.pdf") (by decide) (by decide)).2

/-- C3: the claim says the returned vector's length is validated against the
model dimension (384 for all-MiniLM-L6-v2, the value mirrored by
`expected_dim`) with a hard `EmbeddingDimensionError` on mismatch.  The code
has no such check: a model returning a 3-component vector passes through
`generate_embedding` untouched and unflagged. -/
theorem C3_counterexample :
    generate_embedding (fun _ => [mkRat 1 2, mkRat 1 2, mkRat 1 2]) ("hello")
        = PyResult.ok [mkRat 1 2, mkRat 1 2, mkRat 1 2] ∧
    ([mkRat 1 2, mkRat 1 2, mkRat 1 2] : List ℚ).length ≠ expected_dim := by
  decide

/-- C3 (amended): `generate_embedding` performs no dimension validation at
all — for any text that is not empty or whitespace-only it returns the
model's vector unchanged, whatever its length; the only error it raises is
`EmbeddingError` on empty input (no `EmbeddingDimensionError` exists in the
codebase). -/
theorem C3_amended_no_dimension_check (model_encode : String → List ℚ)
    (text : String) (h : pyStrip text.toList ≠ []) :
    generate_embedding model_encode text = PyResult.ok (model_encode text) := by
  have hne : text.toList ≠ [] := by
    intro h0
    exact h (by rw [h0]; rfl)
  unfold generate_embedding
  rw [if_neg (not_or.mpr ⟨hne, h⟩)]

/-- Concrete run of `C3_amended_no_dimension_check` with a 1-component
"vector". -/
theorem C3_amended_no_dimension_check_witness :
    generate_embedding (fun _ => [mkRat 1 2]) ("hello")
      = PyResult.ok [mkRat 1 2] :=
  C3_amended_no_dimension_check (fun _ => [mkRat 1 2]) ("hello") (by decide)

/-- A nonempty string stays nonempty. -/
theorem string_ne_empty_of_pos (s : String) (h : 0 < s.length) : s ≠ "" := by
  intro hs
  subst hs
  exact (by decide : ¬ (0 < ("" : String).length)) h

/-- Every labelled block is nonempty (it starts with a literal header). -/
theorem format_source_length_pos (idx : Nat) (r : SearchResult) :
    0 < (format_source idx r).length := by
  have h8 : (("[Source ") : String).length = 8 := rfl
  simp only [format_source, String.length_append]
  omega

/-- Joining never shrinks below the first part. -/
theorem join_sep_length_head (sep x : String) (rest : List String) :
    x.length ≤ (join_sep sep (x :: rest)).length := by
  cases rest with
  | nil => simp [join_sep]
  | cons y t =>
    simp only [join_sep, String.length_append]
    omega

/-- C9: `get_context_for_query` returns the sentinel exactly when the final
result list is empty, never returns the empty string, and otherwise joins
the per-result labelled blocks, in the order the Query Engine produced,
with the fixed delimiter. -/
theorem C9_context_assembly (sf : String → Nat → List SearchResult)
    (query : String) (limit : Nat) :
    (context_results sf query limit = [] →
      get_context_for_query sf query limit = no_context_sentinel) ∧
    get_context_for_query sf query limit ≠ "" ∧
    (context_results sf query limit ≠ [] →
      get_context_for_query sf query limit =
        join_sep context_delimiter
          ((context_results sf query limit).enum.map
            (fun p => format_source p.1 p.2))) := by
  refine ⟨?_, ?_, ?_⟩
  · intro h
    simp [get_context_for_query, h]
  · cases hres : context_results sf query limit with
    | nil =>
      simp only [get_context_for_query, hres, List.isEmpty_nil, if_true]
      decide
    | cons r0 rs =>
      have hout : get_context_for_query sf query limit =
          join_sep context_delimiter
            ((r0 :: rs).enum.map (fun p => format_source p.1 p.2)) := by
        simp [get_context_for_query, hres]
      rw [hout]
      have henum : ((r0 :: rs)).enum.map (fun p => format_source p.1 p.2) =
          format_source 0 r0 ::
            ((rs.enumFrom 1).map (fun p => format_source p.1 p.2)) := by
        simp [List.enum]
      rw [henum]
      apply string_ne_empty_of_pos
      calc 0 < (format_source 0 r0).length := format_source_length_pos 0 r0
        _ ≤ _ := join_sep_length_head _ _ _
  · intro h
    cases hres : context_results sf query limit with
    | nil => exact absurd hres h
    | cons r0 rs => simp [get_context_for_query, hres]

/-- Concrete runs of `C9_context_assembly`: the sentinel on an empty store,
and the delimiter-joined labelled blocks on a one-hit store. -/
theorem C9_context_assembly_witness :
    get_context_for_query (fun _ _ => []) ("q") 5 = no_context_sentinel ∧
    get_context_for_query c9_store ("q") 5 ≠ "" ∧
    get_context_for_query c9_store ("q") 5 =
      join_sep context_delimiter
        ((context_results c9_store ("q") 5).enum.map
          (fun p => format_source p.1 p.2)) :=
  ⟨(C9_context_assembly (fun _ _ => []) ("q") 5).1 (by decide),
   (C9_context_assembly c9_store ("q") 5).2.1,
   (C9_context_assembly c9_store ("q") 5).2.2 (by decide)⟩

/-- C10: the claim says that whenever the lowercased query contains one of
the fixed patterns, the search limit is raised to `min(2 * limit, 10)` and a
substituted string is searched instead of the user's query.  For the query
"table 1" (pattern "table 1", replacement "table 1") the replacement equals
the query, so `get_context_for_query` performs a single search with the
caller's limit 5, not `min(2 * 5, 10) = 10`. -/
theorem C10_counterexample :
    listContainsSub (pyStrip (pyLower (("table 1") : String).toList))
        ((("table 1") : String).toList) = true ∧
    context_search_calls (fun _ _ => []) ("table 1") 5
        = [((("table 1") : String), 5)] ∧
    (5 : Nat) ≠ min (5 * 2) 10 := by
  refine ⟨by decide, by decide, by decide⟩

/-- C10 (amended): when `enhance_query` actually changes the query — i.e.
the lowercased stripped query contains a pattern whose replacement differs
from the query — `get_context_for_query` searches the replacement (not the
user's query) with limit `min(2 * limit, 10)`, and retries the original
query, at the caller's limit, exactly when the substituted search returns
no results. -/
theorem C10_enhanced_call_discipline (sf : String → Nat → List SearchResult)
    (query : String) (limit : Nat) (h : enhance_query query ≠ query) :
    (∃ pe ∈ query_enhancements,
        listContainsSub (pyStrip (pyLower query.toList)) pe.1.toList = true ∧
        enhance_query query = pe.2) ∧
    context_search_calls sf query limit =
      (if (sf (enhance_query query) (min (limit * 2) 10)).isEmpty then
        [(enhance_query query, min (limit * 2) 10), (query, limit)]
      else [(enhance_query query, min (limit * 2) 10)]) := by
  constructor
  · cases hf : query_enhancements.find?
        (fun pe => listContainsSub (pyStrip (pyLower query.toList)) pe.1.toList) with
    | none =>
      refine absurd ?_ h
      simp only [enhance_query]
      rw [hf]
    | some pe =>
      refine ⟨pe, List.mem_of_find?_eq_some hf, ?_, ?_⟩
      · simpa using List.find?_some hf
      · simp only [enhance_query]
        rw [hf]
  · by_cases he : (sf (enhance_query query) (min (limit * 2) 10)).isEmpty
    · simp [context_search_calls, h, he]
    · simp [context_search_calls, h, he]

/-- Concrete run of `C10_enhanced_call_discipline`: "summarize" becomes
"abstract introduction conclusion", searched with limit
`min(3 * 2, 10) = 6`; the empty store forces the retry of the original
query at limit 3. -/
theorem C10_enhanced_call_discipline_witness :
    context_search_calls (fun _ _ => []) ("summarize") 3
      = [((("abstract introduction conclusion") : String), min (3 * 2) 10),
         ((("summarize") : String), 3)] := by
  rw [(C10_enhanced_call_discipline (fun _ _ => []) ("summarize") 3 (by decide)).2]
  decide
